import Mathlib

/-!
Verification of the legacy-drives pipeline (src/legacy_drives.py) against its
specification.  The Python source is shallowly embedded: pandas cells that can
be NaN become `Option` values, DataFrames become `List PlayRow`, dicts become
association lists, and the fallible cache loader returns `Except`.  Machine
floats never arise in the claims checked here; the one fractional quantity
(`win_pct`) is modelled with `Rat` and exact half-even rounding.
-/

namespace LegacyDrives

/-! ## Python-flavoured helpers (ASCII semantics, kernel-reducible) -/

/-- Uppercase an ASCII letter, as Python `str.upper` does on ASCII input. -/
def pyUpperChar (c : Char) : Char :=
  if c.isLower then Char.ofNat (c.toNat - 32) else c

/-- ASCII model of Python `str.upper()`. -/
def pyUpper (s : String) : String := String.mk (s.data.map pyUpperChar)

/-- Whitespace test for `str.strip()`. -/
def pyIsSpace (c : Char) : Bool :=
  c = ' ' || c = '\t' || c = '\n' || c = '\r' || c = '\x0b' || c = '\x0c'

/-- Model of Python `str.strip()`. -/
def pyStrip (s : String) : String :=
  String.mk (((s.data.dropWhile pyIsSpace).reverse.dropWhile pyIsSpace).reverse)

/-- Model of Python `str.startswith(pre)`. -/
def pyStartsWith (s pre : String) : Bool := pre.data.isPrefixOf s.data

/-- Contiguous-sublist test on characters (Python `needle in hay`). -/
def listInfix (needle : List Char) : List Char → Bool
  | [] => needle.isEmpty
  | c :: rest => needle.isPrefixOf (c :: rest) || listInfix needle rest

/-- Model of Python `needle in hay` for strings. -/
def strContains (hay needle : String) : Bool := listInfix needle.data hay.data

/-- Digits of a decimal string, most significant first. -/
def digitsToNat : List Char → Option Nat → Option Nat
  | [], acc => acc
  | c :: rest, acc =>
    match acc with
    | none => none
    | some n => if c.isDigit then digitsToNat rest (some (n * 10 + (c.toNat - 48))) else none

/-- Model of Python `int(s)` on a stripped string: optional sign then digits. -/
def pyParseInt (s : String) : Option Int :=
  match (pyStrip s).data with
  | '-' :: rest => if rest.isEmpty then none else (digitsToNat rest (some 0)).map (fun n => -(n : Int))
  | '+' :: rest => if rest.isEmpty then none else (digitsToNat rest (some 0)).map (fun n => (n : Int))
  | l => if l.isEmpty then none else (digitsToNat l (some 0)).map (fun n => (n : Int))

/-- Ordinal comparison of strings, as Python compares `str` values. -/
def charListLt : List Char → List Char → Bool
  | _, [] => false
  | [], _ :: _ => true
  | a :: as_, b :: bs => if a.toNat = b.toNat then charListLt as_ bs else a.toNat < b.toNat

/-- Weak ordinal order on strings (used for sorted groupby indexes). -/
def pyStrLe (a b : String) : Bool := a = b || charListLt a.data b.data

/-- Keep the first occurrence of every element (Python `dict`/first-seen order). -/
def dedupFirstAux {α : Type} [BEq α] : List α → List α → List α
  | _, [] => []
  | seen, a :: rest =>
    if seen.contains a then dedupFirstAux seen rest
    else a :: dedupFirstAux (a :: seen) rest

/-- First-occurrence deduplication of a list. -/
def dedupFirst {α : Type} [BEq α] (l : List α) : List α := dedupFirstAux [] l

/-! ## Data model

One row of the play-by-play table (`PlayEvent` of the spec).  Cells that pandas
may hold as NaN are `Option`; the pipeline's column-presence checks
(`"x" in df.columns`) are modelled by the column existing with all-`none`
cells, which the source code treats the same way. -/

structure PlayRow where
  game_id : String := ""
  play_id : Int := 0
  drive : Option Int := none
  qtr : Option Int := none
  season : Option Int := none
  season_type : Option String := none
  week : Option Int := none
  posteam : Option String := none
  home_team : Option String := none
  away_team : Option String := none
  posteam_score : Option Int := none
  defteam_score : Option Int := none
  quarter_seconds_remaining : Option Int := none
  game_seconds_remaining : Option Int := none
  posteam_score_post : Option Int := none
  defteam_score_post : Option Int := none
  touchdown : Option Int := none
  td_team : Option String := none
  field_goal_result : Option String := none
  qb_id : Option String := none
  qb : Option String := none
  pass_attempt : Option Int := none
  passer_id : Option String := none
  passer : Option String := none
  play_type : Option String := none
  down : Option Int := none
  ydstogo : Option Int := none
  time : Option String := none
  desc : Option String := none
deriving DecidableEq, Repr

/-- Persisted opportunity record: `{"qb_id", "result", "season_type"}`.
`season_type` is `none` when a legacy cache entry lacks the key. -/
structure Opportunity where
  qb_id : String
  result : String
  season_type : Option String
deriving DecidableEq, Repr

/-- A `LegacyDriveRow`: the display-oriented record built per opportunity. -/
structure LRow where
  season_type : String
  qb_name : String
  season : Option Int
  week : Option Int
  week_label : Option String
  away_team : Option String
  home_team : Option String
  game_id : String
  period : String
  start_score_diff : Option String
  start_time : Option String
  end_time : Option String
  final_down : Option String
  final_ydstogo : Option String
  final_play : Option String
  end_team_score : Int
  end_opp_score : Int
  result : String
  reason : String
deriving DecidableEq, Repr

/-- The persisted `LedgerState`: opportunities, processed game ids, the highest
fully processed season, and the detail rows.  The `last_updated` timestamp is
written only when the cache is saved and carries no pipeline state, so it is
not part of the model. -/
structure CacheState where
  opportunities : List Opportunity
  processed_games : List String
  last_season_processed : Int
  legacydrive_rows : List LRow
deriving DecidableEq, Repr

/-! ## Option-valued cell arithmetic (pandas NaN propagation) -/

/-- Subtraction of two cells; NaN propagates. -/
def optSub : Option Int → Option Int → Option Int
  | some a, some b => some (a - b)
  | _, _ => none

/-- Comparison `cell <= k`; false on NaN, as a pandas boolean mask is. -/
def optLeNum : Option Int → Int → Bool
  | some v, k => decide (v ≤ k)
  | none, _ => false

/-- Comparison `cell >= k`; false on NaN. -/
def optGeNum : Option Int → Int → Bool
  | some v, k => decide (k ≤ v)
  | none, _ => false

/-- Model of `Series.between(lo, hi)` (inclusive both ends); false on NaN. -/
def optBetween : Option Int → Int → Int → Bool
  | some v, lo, hi => decide (lo ≤ v) && decide (v ≤ hi)
  | none, _, _ => false

/-! ## seasons_to_load (src/legacy_drives.py lines 63-66) -/

/-- Python `list(range(a, b))` over integers. -/
def pyRange (a b : Int) : List Int :=
  (List.range (b - a).toNat).map (fun i : Nat => a + (i : Int))

/-- Embeds `seasons_to_load`: the catch-up range `[lastProcessed, currentSeason]`
when behind by more than one season, else the current season alone. -/
def seasons_to_load (last_season_processed current_season : Int) : List Int :=
  if last_season_processed < current_season - 1 then
    pyRange last_season_processed (current_season + 1)
  else [current_season]

/-! ## classify_ot_result (src/legacy_drives.py lines 192-221) -/

/-- Test `season_val is not None and season_val < cutoff`. -/
def season_lt (o : Option Int) (cutoff : Int) : Prop :=
  match o with
  | some v => v < cutoff
  | none => False

instance (o : Option Int) (cutoff : Int) : Decidable (season_lt o cutoff) :=
  match o with
  | some v => inferInstanceAs (Decidable (v < cutoff))
  | none => inferInstanceAs (Decidable False)

/-- Embeds `classify_ot_result`: the era-aware overtime outcome rule.  The
source uppercases `season_type` itself before branching. -/
def classify_ot_result (season_type : String) (season_val : Option Int) (ot_rank : Int)
    (td_scored fg_scored : Bool) (end_team_score end_opp_score : Int) : String × String :=
  let st := pyUpper season_type
  if st = "POST" ∧ season_lt season_val 2010 then
    if td_scored || fg_scored then ("W", "OT (POST pre-2010): FG/TD scored on drive (Success)")
    else ("L", "OT (POST pre-2010): no FG/TD scored on drive (Failure)")
  else if st = "REG" ∧ season_lt season_val 2012 then
    if td_scored || fg_scored then ("W", "OT (REG pre-2012): FG/TD scored on drive (Success)")
    else ("L", "OT (REG pre-2012): no FG/TD scored on drive (Failure)")
  else if ot_rank = 1 then
    if td_scored then ("W", "OT (1st drive): TD scored (Success)")
    else ("L", "OT (1st drive): no TD (FG or no score) (Failure)")
  else if end_opp_score < end_team_score then
    ("W", "OT (drive " ++ toString ot_rank ++ "): ended leading (Success)")
  else ("L", "OT (drive " ++ toString ot_rank ++ "): ended not leading (Failure)")

/-! ## get_qb_for_drive (src/legacy_drives.py lines 79-107) -/

/-- Occurrences of a value in a list of cells. -/
def countOcc (l : List String) (x : String) : Nat := (l.filter (fun y => y == x)).length

/-- First element of `Series.mode()`: pandas sorts the modal values, so ties
resolve to the ordinally smallest value of maximal count. -/
def pandas_mode (l : List String) : Option String :=
  let uniq := dedupFirst l
  let best := uniq.filter (fun x => uniq.all (fun y => countOcc l y ≤ countOcc l x))
  match best with
  | [] => none
  | a :: rest => some (rest.foldl (fun m x => if charListLt x.data m.data then x else m) a)

/-- Model of `Counter(l).most_common(1)`: ties resolve to the first-seen value. -/
def counter_most_common (l : List String) : Option String :=
  let uniq := dedupFirst l
  uniq.find? (fun x => uniq.all (fun y => countOcc l y ≤ countOcc l x))

/-- Rendering of an optional team cell inside an f-string: a pandas missing
value prints as `nan`. -/
def pyRenderOptStr : Option String → String
  | some s => s
  | none => "nan"

/-- Embeds `get_qb_for_drive`: prefer the modal `qb_id` of the drive, else the
most common `passer_id` on pass attempts, else the `TEAM_<posteam>`
placeholder whose display name is the placeholder itself.  A name-map miss
falls back to the raw identifier (`str(qb_name) if qb_name is not None else
str(qb_id)`). -/
def get_qb_for_drive (drive_all : List PlayRow) (drive_start_row : PlayRow)
    (qb_name_map passer_name_map : List (String × String)) : String × String :=
  let qb_series := drive_all.filterMap (fun p => p.qb_id)
  match pandas_mode qb_series with
  | some qid => (qid, (List.lookup qid qb_name_map).getD qid)
  | none =>
    let drive_pass := drive_all.filter (fun p => p.pass_attempt == some 1)
    let passers := drive_pass.filterMap (fun p => p.passer_id)
    match counter_most_common passers with
    | some pid => (pid, (List.lookup pid passer_name_map).getD pid)
    | none =>
      let team_id := "TEAM_" ++ pyRenderOptStr drive_start_row.posteam
      (team_id, team_id)

/-! ## get_meaningful_final_play (src/legacy_drives.py lines 109-122) -/

/-- One row passes the meaningful-final-play screen: not an extra point or
two-point attempt, and the description is not END GAME / Timeout / TWO-POINT
ATTEMPT noise. -/
def is_meaningful (row : PlayRow) : Bool :=
  let desc_txt := row.desc.getD ""
  !(row.play_type == some "extra_point" || row.play_type == some "two_point_attempt")
    && !(strContains desc_txt "END GAME")
    && !(pyStartsWith (pyStrip desc_txt) "Timeout")
    && !(pyStartsWith (pyStrip desc_txt) "TWO-POINT ATTEMPT")

/-- Embeds `get_meaningful_final_play`: the first meaningful row of the
(already sorted) drive, else `iloc[0]`.  The pipeline only calls it on a
non-empty drive, so the `none` case is never reached from `process_candidate`. -/
def get_meaningful_final_play (drive_all : List PlayRow) : Option PlayRow :=
  match drive_all.find? is_meaningful with
  | some r => some r
  | none => drive_all.head?

/-! ## postseason_week_label (src/legacy_drives.py lines 124-133) -/

/-- Embeds `postseason_week_label`. -/
def postseason_week_label (season week : Option Int) : Option String :=
  match season, week with
  | some s, some w =>
    if s ≤ 2020 then
      if w = 18 then some "WC" else if w = 19 then some "DIV"
      else if w = 20 then some "CC" else if w = 21 then some "SB" else none
    else
      if w = 19 then some "WC" else if w = 20 then some "DIV"
      else if w = 21 then some "CC" else if w = 22 then some "SB" else none
  | _, _ => none

/-! ## build_drive_starts (src/legacy_drives.py lines 72-77)

The source sorts by `(game_id, drive, play_id)`, groups by `(game_id, drive)`
(rows with a NaN drive are dropped by pandas groupby) and aggregates with
`.first()`, which takes the first NON-NULL value per column within each
group. -/

/-- Sort key of `sort_values(["game_id", "drive", "play_id"])`; NaN drives
sort last, as pandas places them. -/
def bdsLe (a b : PlayRow) : Bool :=
  if a.game_id = b.game_id then
    match a.drive, b.drive with
    | some x, some y => if x = y then decide (a.play_id ≤ b.play_id) else decide (x < y)
    | some _, none => true
    | none, some _ => false
    | none, none => decide (a.play_id ≤ b.play_id)
  else charListLt a.game_id.data b.game_id.data

/-- The `(game_id, drive)` group keys in sorted first-occurrence order. -/
def driveKeys (rows : List PlayRow) : List (String × Int) :=
  dedupFirst (rows.filterMap (fun r => r.drive.map (fun d => (r.game_id, d))))

/-- Rows of one `(game_id, drive)` group, in the carrier list's order. -/
def driveGroup (rows : List PlayRow) (k : String × Int) : List PlayRow :=
  rows.filter (fun r => r.game_id == k.1 && r.drive == some k.2)

/-- First non-null cell of a column within a group (`groupby(...).first()`). -/
def firstCell {α : Type} (rows : List PlayRow) (get : PlayRow → Option α) : Option α :=
  rows.findSome? get

/-- Per-column first-non-null aggregation of one group into its start row. -/
def groupby_first (rows : List PlayRow) : Option PlayRow :=
  match rows with
  | [] => none
  | r0 :: _ =>
    some { game_id := r0.game_id, play_id := r0.play_id,
           drive := firstCell rows (fun r => r.drive),
           qtr := firstCell rows (fun r => r.qtr),
           season := firstCell rows (fun r => r.season),
           season_type := firstCell rows (fun r => r.season_type),
           week := firstCell rows (fun r => r.week),
           posteam := firstCell rows (fun r => r.posteam),
           home_team := firstCell rows (fun r => r.home_team),
           away_team := firstCell rows (fun r => r.away_team),
           posteam_score := firstCell rows (fun r => r.posteam_score),
           defteam_score := firstCell rows (fun r => r.defteam_score),
           quarter_seconds_remaining := firstCell rows (fun r => r.quarter_seconds_remaining),
           game_seconds_remaining := firstCell rows (fun r => r.game_seconds_remaining),
           posteam_score_post := firstCell rows (fun r => r.posteam_score_post),
           defteam_score_post := firstCell rows (fun r => r.defteam_score_post),
           touchdown := firstCell rows (fun r => r.touchdown),
           td_team := firstCell rows (fun r => r.td_team),
           field_goal_result := firstCell rows (fun r => r.field_goal_result),
           qb_id := firstCell rows (fun r => r.qb_id),
           qb := firstCell rows (fun r => r.qb),
           pass_attempt := firstCell rows (fun r => r.pass_attempt),
           passer_id := firstCell rows (fun r => r.passer_id),
           passer := firstCell rows (fun r => r.passer),
           play_type := firstCell rows (fun r => r.play_type),
           down := firstCell rows (fun r => r.down),
           ydstogo := firstCell rows (fun r => r.ydstogo),
           time := firstCell rows (fun r => r.time),
           desc := firstCell rows (fun r => r.desc) }

/-- Embeds `build_drive_starts`: one aggregated start row per drive. -/
def build_drive_starts (pbp_period : List PlayRow) : List PlayRow :=
  let sorted := List.insertionSort (fun a b => bdsLe a b = true) pbp_period
  (driveKeys sorted).filterMap (fun k => groupby_first (driveGroup sorted k))

/-! ## Candidate extraction (src/legacy_drives.py lines 239-257) -/

/-- An `opps` row: the drive-start snapshot, its period tag, the computed
score differential, and the overtime rank when the period is OT. -/
structure Candidate where
  start : PlayRow
  score_diff : Option Int
  period : String
  ot_drive_rank : Option Int
deriving DecidableEq, Repr

/-- The Q4 situational filter of lines 243-247:
`quarter_seconds_remaining <= 180`, `>= 0`, and `score_diff.between(-8, -1)`. -/
def q4_filter (r : PlayRow) : Bool :=
  optLeNum r.quarter_seconds_remaining 180
    && optGeNum r.quarter_seconds_remaining 0
    && optBetween (optSub r.posteam_score r.defteam_score) (-8) (-1)

/-- Q4 candidates: filtered drive starts tagged with period Q4. -/
def q4_candidates (pbp_q4 : List PlayRow) : List Candidate :=
  ((build_drive_starts pbp_q4).filter q4_filter).map
    (fun r => ⟨r, optSub r.posteam_score r.defteam_score, "Q4", none⟩)

/-- Sort key of `sort_values(["game_id", "qtr", "play_id"])` for OT starts. -/
def otSortLe (a b : PlayRow) : Bool :=
  if a.game_id = b.game_id then
    match a.qtr, b.qtr with
    | some x, some y => if x = y then decide (a.play_id ≤ b.play_id) else decide (x < y)
    | some _, none => true
    | none, some _ => false
    | none, none => decide (a.play_id ≤ b.play_id)
  else charListLt a.game_id.data b.game_id.data

/-- Model of `groupby("game_id").cumcount() + 1` over an already sorted list: each row
is ranked by how many rows of the same game precede it, plus one. -/
def cumcountAux : List PlayRow → List String → List (PlayRow × Int)
  | [], _ => []
  | r :: rest, prev =>
    (r, ((prev.filter (fun g => g == r.game_id)).length : Int) + 1)
      :: cumcountAux rest (r.game_id :: prev)

/-- OT candidates: every OT drive start, tagged with its per-game rank. -/
def ot_candidates (pbp_ot : List PlayRow) : List Candidate :=
  let starts := List.insertionSort (fun a b => otSortLe a b = true) (build_drive_starts pbp_ot)
  (cumcountAux starts []).map
    (fun p => ⟨p.1, optSub p.1.posteam_score p.1.defteam_score, "OT", some p.2⟩)

/-! ## Per-candidate processing (src/legacy_drives.py lines 259-381) -/

/-- Normalisation of line 263: `str(row.get("season_type") or "").upper() or "REG"`. -/
def norm_season_type (o : Option String) : String :=
  match o with
  | none => "REG"
  | some s => if pyUpper s = "" then "REG" else pyUpper s

/-- Sort key of line 281: ascending remaining game clock (NaN last), then
descending `play_id`, so the head of the sorted list is the last play. -/
def driveSortLe (a b : PlayRow) : Bool :=
  match a.game_seconds_remaining, b.game_seconds_remaining with
  | some x, some y => if x = y then decide (b.play_id ≤ a.play_id) else decide (x < y)
  | some _, none => true
  | none, some _ => false
  | none, none => decide (b.play_id ≤ a.play_id)

/-- Forward fill of one optional column down a list of rows. -/
def ffillCol (get : PlayRow → Option Int) (set : PlayRow → Option Int → PlayRow) :
    Option Int → List PlayRow → List PlayRow
  | _, [] => []
  | carry, p :: rest =>
    match get p with
    | some v => set p (some v) :: ffillCol get set (some v) rest
    | none => set p carry :: ffillCol get set carry rest

/-- Backward fill of one optional column (forward fill of the reverse). -/
def bfillCol (get : PlayRow → Option Int) (set : PlayRow → Option Int → PlayRow)
    (l : List PlayRow) : List PlayRow :=
  (ffillCol get set none l.reverse).reverse

/-- Lines 281-285: sort the drive chronologically-last-first and
forward-then-backward fill the two post-play score columns. -/
def prepare_drive (drive_all : List PlayRow) : List PlayRow :=
  let sorted := List.insertionSort (fun a b => driveSortLe a b = true) drive_all
  let f1 := bfillCol (fun r => r.posteam_score_post)
    (fun r v => { r with posteam_score_post := v })
    (ffillCol (fun r => r.posteam_score_post)
      (fun r v => { r with posteam_score_post := v }) none sorted)
  bfillCol (fun r => r.defteam_score_post)
    (fun r v => { r with defteam_score_post := v })
    (ffillCol (fun r => r.defteam_score_post)
      (fun r v => { r with defteam_score_post := v }) none f1)

/-- Lines 287-297: the end-of-drive scores.  The head of the prepared drive is
the last play; if its post scores are still missing, fall back to the first
prepared row carrying both, else the candidate is dropped. -/
def drive_end (drive_all : List PlayRow) : Option (PlayRow × Int × Int) :=
  let prepared := prepare_drive drive_all
  match prepared.head? with
  | none => none
  | some last_play =>
    match last_play.posteam_score_post, last_play.defteam_score_post with
    | some et, some eo => some (last_play, et, eo)
    | _, _ =>
      match (prepared.filter
          (fun p => p.posteam_score_post.isSome && p.defteam_score_post.isSome)).head? with
      | none => none
      | some lp =>
        match lp.posteam_score_post, lp.defteam_score_post with
        | some et, some eo => some (lp, et, eo)
        | _, _ => none

/-- Lines 316-323: a touchdown attributable to the starting offense, matched
against `td_team` when the start row has a team, else any touchdown. -/
def td_scored_of (drive_all : List PlayRow) (start_posteam : Option String) : Bool :=
  match start_posteam with
  | some t => drive_all.any (fun p => p.touchdown == some 1 && p.td_team == some t)
  | none => drive_all.any (fun p => p.touchdown == some 1)

/-- Lines 325-330: a made field goal attributable to the starting offense. -/
def fg_scored_of (drive_all : List PlayRow) (start_posteam : Option String) : Bool :=
  match start_posteam with
  | some t => drive_all.any (fun p => p.field_goal_result == some "made" && p.posteam == some t)
  | none => drive_all.any (fun p => p.field_goal_result == some "made")

/-- Lines 350-355: the final meaningful play's description and down/distance
strings (`f"{int(d)}down"` only for a positive, non-null down). -/
def final_down_str (o : Option Int) : Option String :=
  match o with
  | some d => if 0 < d then some (toString d ++ "down") else none
  | none => none

/-- Same for `f"{int(y)}yrdstogo"`. -/
def final_yds_str (o : Option Int) : Option String :=
  match o with
  | some y => if 0 < y then some (toString y ++ "yrdstogo") else none
  | none => none

/-- The loop body of lines 259-381 for one candidate whose drive group was
located: resolve the quarterback, prepare the drive, resolve the end scores
(drop the candidate when impossible), classify by period and era, apply the
late-loss suppression of lines 342-346, and emit the opportunity and its
detail row together.  `start_score_diff` is rendered only when the snapshot
carries a score differential (the source's `int()` would raise otherwise,
which no qualifying candidate triggers). -/
def process_candidate (c : Candidate) (drive_all : List PlayRow)
    (qb_name_map passer_name_map : List (String × String)) : Option (Opportunity × LRow) :=
  let season_type := norm_season_type c.start.season_type
  let qbp := get_qb_for_drive drive_all c.start qb_name_map passer_name_map
  match drive_end drive_all with
  | none => none
  | some (last_play, end_team_score, end_opp_score) =>
    let rr : String × String :=
      if c.period = "Q4" then
        if end_opp_score ≤ end_team_score then ("W", "Q4: drive ended tied or leading (Success)")
        else ("L", "Q4: drive ended still trailing (Failure)")
      else
        classify_ot_result season_type c.start.season (c.ot_drive_rank.getD 1)
          (td_scored_of (prepare_drive drive_all) c.start.posteam)
          (fg_scored_of (prepare_drive drive_all) c.start.posteam)
          end_team_score end_opp_score
    if c.period = "Q4" ∧ optLeNum c.start.quarter_seconds_remaining 30 = true ∧ rr.1 = "L" then
      none
    else
      let final_row := (get_meaningful_final_play (prepare_drive drive_all)).getD c.start
      some ({ qb_id := qbp.1, result := rr.1, season_type := some season_type },
        { season_type := season_type,
          qb_name := qbp.2,
          season := c.start.season,
          week := c.start.week,
          week_label := if season_type = "POST" then
              postseason_week_label c.start.season c.start.week else none,
          away_team := c.start.away_team,
          home_team := c.start.home_team,
          game_id := c.start.game_id,
          period := c.period,
          start_score_diff := c.score_diff.map (fun d => "down " ++ toString d.natAbs),
          start_time := c.start.time,
          end_time := last_play.time,
          final_down := final_down_str final_row.down,
          final_ydstogo := final_yds_str final_row.ydstogo,
          final_play := final_row.desc,
          end_team_score := end_team_score,
          end_opp_score := end_opp_score,
          result := rr.1,
          reason := rr.2 })

/-- The `get_group((game_id, drive))` lookup of lines 265-272; `none` models
the `KeyError` path that silently skips the candidate. -/
def lookup_drive (pbp_period : List PlayRow) (start : PlayRow) : Option (List PlayRow) :=
  match start.drive with
  | none => none
  | some d =>
    let grp := pbp_period.filter (fun r => r.game_id == start.game_id && r.drive == some d)
    if grp.isEmpty then none else some grp

/-- Embeds `process_new_games`: restrict to the new games, split Q4 from OT,
build candidates, and process each, appending the emitted opportunities and
rows in order. -/
def process_new_games (pbp : List PlayRow) (new_games : List String)
    (passer_name_map qb_name_map : List (String × String)) :
    List Opportunity × List LRow :=
  if new_games.isEmpty then ([], [])
  else
    let pbp2 := pbp.filter (fun r => new_games.contains r.game_id)
    if pbp2.isEmpty then ([], [])
    else
      let pbp_q4 := pbp2.filter (fun r => r.qtr == some 4)
      let pbp_ot := pbp2.filter (fun r => optGeNum r.qtr 5)
      let cands := q4_candidates pbp_q4 ++ ot_candidates pbp_ot
      cands.foldl (fun acc c =>
        match lookup_drive (if c.period = "Q4" then pbp_q4 else pbp_ot) c.start with
        | none => acc
        | some grp =>
          match process_candidate c grp qb_name_map passer_name_map with
          | none => acc
          | some pr => (acc.1 ++ [pr.1], acc.2 ++ [pr.2])) ([], [])

/-! ## The run protocol of main (src/legacy_drives.py lines 983-1031) -/

/-- Embeds `_normalize_cached_opportunities`: a cached entry without the
`season_type` key gains `"REG"`. -/
def normalize_cached (l : List Opportunity) : List Opportunity :=
  l.map (fun o => { o with season_type := some (o.season_type.getD "REG") })

/-- Model of `pbp.groupby(id_col)[name_col].first().to_dict()`: one entry per distinct
non-null identifier, valued by the first non-null name seen with it.  (A group
whose names are all null would map to NaN; such entries are not modelled.) -/
def groupby_first_name (pbp : List PlayRow) (getId getName : PlayRow → Option String) :
    List (String × String) :=
  (dedupFirst (pbp.filterMap getId)).filterMap (fun k =>
    ((pbp.filter (fun r => getId r == some k)).findSome? getName).map (fun n => (k, n)))

/-- The game ids fetched this run, `set(pbp_all["game_id"].unique())`, minus
the already processed ones. -/
def new_games_of (cache : CacheState) (pbp_all : List PlayRow) : List String :=
  (dedupFirst (pbp_all.map (fun r => r.game_id))).filter
    (fun g => !(cache.processed_games.contains g))

/-- Line 1005: the fetched rows restricted to new games (empty when there are
no new games). -/
def pbp_new_of (cache : CacheState) (pbp_all : List PlayRow) : List PlayRow :=
  if (new_games_of cache pbp_all).isEmpty then []
  else pbp_all.filter (fun r => (new_games_of cache pbp_all).contains r.game_id)

/-- Whether the run reaches the save of lines 1029-1030 (it fetched rows and
some of them belong to new games). -/
def pipeline_saved (cache : CacheState) (pbp_all : List PlayRow) : Bool :=
  !pbp_all.isEmpty && !(pbp_new_of cache pbp_all).isEmpty

/-- The season-advancement of lines 1023-1027. -/
def advance_last_season (cache : CacheState) (current_season : Int) : Int :=
  let seasons := seasons_to_load cache.last_season_processed current_season
  if seasons.getLastD 0 < current_season then seasons.getLastD 0
  else if 1 < seasons.length then current_season - 1
  else cache.last_season_processed

/-- Embeds the state transition of `main`: load, process new games, merge,
advance the season marker, save.  When no rows are fetched, or none belong to
a new game, nothing is saved and the persisted state is returned untouched. -/
def main_step (cache : CacheState) (current_season : Int) (pbp_all : List PlayRow)
    (persistent_name_map : List (String × String)) : CacheState :=
  if pbp_all.isEmpty then cache
  else
    let new_games := new_games_of cache pbp_all
    let pbp_new := pbp_new_of cache pbp_all
    if pbp_new.isEmpty then cache
    else
      let passer_name_map :=
        groupby_first_name pbp_all (fun r => r.passer_id) (fun r => r.passer)
          ++ persistent_name_map
      let qb_name_map := groupby_first_name pbp_all (fun r => r.qb_id) (fun r => r.qb)
      let pr := process_new_games pbp_new new_games passer_name_map qb_name_map
      { opportunities := normalize_cached cache.opportunities ++ pr.1,
        processed_games := cache.processed_games ++ new_games,
        last_season_processed := advance_last_season cache current_season,
        legacydrive_rows := cache.legacydrive_rows ++ pr.2 }

/-! ## build_leaderboard_records (src/legacy_drives.py lines 164-190) -/

/-- One aggregated leaderboard record.  The pandas frame keeps `qb_id` as the
index; `qb_name` is `records.index.map(name_map)` and is therefore missing
(`none`, pandas NaN) for an id absent from the map. -/
structure LRecord where
  qb_id : String
  qb_name : Option String
  wins : Nat
  losses : Nat
  decisions : Nat
  win_pct : Rat
deriving DecidableEq, Repr

/-- Round half to even, the rounding Python's `round` applies. -/
def roundHalfEven (x : Rat) : Int :=
  let f := ⌊x⌋
  let frac := x - (f : Rat)
  if frac < 1/2 then f
  else if 1/2 < frac then f + 1
  else if f % 2 = 0 then f else f + 1

/-- Model of Python `round(x, 1)` on the exact rational value. -/
def round1 (x : Rat) : Rat := ((roundHalfEven (10 * x) : Int) : Rat) / 10

/-- Pivot-table cell: how many opportunities of one `qb_id` carry one result. -/
def countRes (opportunities : List Opportunity) (qid res : String) : Nat :=
  (opportunities.filter (fun o => o.qb_id == qid && o.result == res)).length

/-- One leaderboard record for one index entry. -/
def mkRecord (opportunities : List Opportunity) (name_map : List (String × String))
    (i : String) : LRecord :=
  let wins := countRes opportunities i "W"
  let losses := countRes opportunities i "L"
  let decisions := wins + losses
  { qb_id := i,
    qb_name := List.lookup i name_map,
    wins := wins,
    losses := losses,
    decisions := decisions,
    win_pct := if 0 < decisions then round1 ((wins : Rat) / (decisions : Rat) * 100) else 0 }

/-- The final ordering of line 187-189: wins descending, then losses
ascending, then win_pct descending. -/
def RecOrder (a b : LRecord) : Prop :=
  b.wins < a.wins ∨
    (a.wins = b.wins ∧ (a.losses < b.losses ∨ (a.losses = b.losses ∧ b.win_pct ≤ a.win_pct)))

instance : DecidableRel RecOrder := fun a b => by
  unfold RecOrder; exact inferInstance

instance : IsTotal LRecord RecOrder where
  total a b := by
    unfold RecOrder
    rcases Nat.lt_trichotomy a.wins b.wins with hw | hw | hw
    · exact Or.inr (Or.inl hw)
    · rcases Nat.lt_trichotomy a.losses b.losses with hl | hl | hl
      · exact Or.inl (Or.inr ⟨hw, Or.inl hl⟩)
      · rcases le_total b.win_pct a.win_pct with hp | hp
        · exact Or.inl (Or.inr ⟨hw, Or.inr ⟨hl, hp⟩⟩)
        · exact Or.inr (Or.inr ⟨hw.symm, Or.inr ⟨hl.symm, hp⟩⟩)
      · exact Or.inr (Or.inr ⟨hw.symm, Or.inl hl⟩)
    · exact Or.inl (Or.inl hw)

instance : IsTrans LRecord RecOrder where
  trans a b c hab hbc := by
    unfold RecOrder at *
    rcases hab with hab | ⟨habw, hab⟩
    · rcases hbc with hbc | ⟨hbcw, _⟩
      · exact Or.inl (hbc.trans hab)
      · exact Or.inl (hbcw ▸ hab)
    · rcases hbc with hbc | ⟨hbcw, hbc⟩
      · exact Or.inl (habw ▸ hbc)
      · refine Or.inr ⟨habw.trans hbcw, ?_⟩
        rcases hab with hab | ⟨habl, hab⟩
        · rcases hbc with hbc | ⟨hbcl, _⟩
          · exact Or.inl (hab.trans hbc)
          · exact Or.inl (hbcl ▸ hab)
        · rcases hbc with hbc | ⟨hbcl, hbc⟩
          · exact Or.inl (habl ▸ hbc)
          · exact Or.inr ⟨habl.trans hbcl, hbc.trans hab⟩

/-- Embeds `build_leaderboard_records`: pivot by `qb_id` counting W and L,
drop `TEAM_` placeholder ids, resolve names, compute decisions and win
percentage, drop zero-decision records, and sort by the fixed triple.  The
pivot index is sorted, as `pivot_table` sorts grouped keys. -/
def build_leaderboard_records (opportunities : List Opportunity)
    (name_map : List (String × String)) : List LRecord :=
  if opportunities.isEmpty then []
  else
    let ids := List.insertionSort (fun a b => pyStrLe a b = true)
      (dedupFirst (opportunities.map (fun o => o.qb_id)))
    let kept := ids.filter (fun i => !(pyStartsWith i "TEAM_"))
    let recs := (kept.map (mkRecord opportunities name_map)).filter
      (fun r => decide (0 < r.decisions))
    List.insertionSort RecOrder recs

/-! ## load_legacydrive_cache (src/legacy_drives.py lines 22-34) -/

/-- A parsed JSON value, as far as the cache loader inspects one. -/
inductive JVal where
  | null : JVal
  | jb : Bool → JVal
  | ji : Int → JVal
  | js : String → JVal
  | jarr : List JVal → JVal
  | jobj : List (String × JVal) → JVal

/-- Python truthiness of a JSON value. -/
def jFalsy : JVal → Bool
  | .null => true
  | .jb b => !b
  | .ji n => n == 0
  | .js s => s == ""
  | .jarr l => l.isEmpty
  | .jobj l => l.isEmpty

/-- Python `v or d`. -/
def pyOrJ (v d : JVal) : JVal := if jFalsy v then d else v

/-- Python `dict.get(k, d)` on a parsed JSON object. -/
def jGet (fields : List (String × JVal)) (k : String) (d : JVal) : JVal :=
  match List.lookup k fields with
  | some v => v
  | none => d

/-- Python `int(v)` on a JSON value: integers pass, booleans coerce, numeric
strings parse, anything else raises. -/
def pyToInt : JVal → Except String Int
  | .ji n => .ok n
  | .jb true => .ok 1
  | .jb false => .ok 0
  | .js s =>
    match pyParseInt s with
    | some n => .ok n
    | none => .error "ValueError: invalid literal for int()"
  | _ => .error "TypeError: int() argument"

/-- Python `set(v)`: a JSON array's elements (deduplication is not modelled;
only emptiness and error behaviour are claim-relevant), a string's characters,
and a type error otherwise. -/
def pySet : JVal → Except String (List JVal)
  | .jarr l => .ok l
  | .js s => .ok (s.data.map (fun c => JVal.js (String.singleton c)))
  | _ => .error "TypeError: not iterable"

/-- What `load_legacydrive_cache` hands back when it returns. -/
structure LoadedCache where
  opportunities : JVal
  processed_games : List JVal
  last_season_processed : Int
  legacydrive_rows : JVal

/-- The fresh-start defaults returned for an absent cache file. -/
def fresh_defaults : LoadedCache := ⟨.jarr [], [], 2000, .jarr []⟩

/-- Embeds `load_legacydrive_cache` over the file's observable states: `none`
is an absent file (fresh-start defaults), `some none` a present file whose
JSON parse fails (the uncaught `json.JSONDecodeError`), and `some (some v)`
a file parsing to `v`.  The source wraps nothing in try/except, so every
failure after the existence check propagates as an error. -/
def load_legacydrive_cache (cache_file : Option (Option JVal)) :
    Except String LoadedCache :=
  match cache_file with
  | none => .ok fresh_defaults
  | some none => .error "JSONDecodeError"
  | some (some parsed) =>
    match pyOrJ parsed (.jobj []) with
    | .jobj fields =>
      let opportunities := pyOrJ (jGet fields "opportunities" (.jarr [])) (.jarr [])
      match pySet (pyOrJ (jGet fields "processed_games" (.jarr [])) (.jarr [])) with
      | .error e => .error e
      | .ok processed_games =>
        match pyToInt (pyOrJ (jGet fields "last_season_processed" (.ji 2000)) (.ji 2000)) with
        | .error e => .error e
        | .ok lsp =>
          .ok ⟨opportunities, processed_games, lsp,
            pyOrJ (jGet fields "legacydrive_rows" .null) (.jarr [])⟩
    | _ => .error "AttributeError: object has no attribute get"

/-! ## Helper lemmas -/

/-- Members of the deduplicated list come from the original list. -/
theorem mem_dedupFirstAux {α : Type} [BEq α] (l : List α) (seen : List α) (a : α)
    (h : a ∈ dedupFirstAux seen l) : a ∈ l := by
  induction l generalizing seen with
  | nil => simp [dedupFirstAux] at h
  | cons b rest ih =>
    unfold dedupFirstAux at h
    by_cases hc : seen.contains b = true
    · exact List.mem_cons_of_mem _ (ih _ (by simpa [hc] using h))
    · rw [if_neg hc] at h
      rcases List.mem_cons.mp h with h2 | h2
      · exact h2 ▸ List.mem_cons_self _ _
      · exact List.mem_cons_of_mem _ (ih _ h2)

/-- Members of `dedupFirst l` are members of `l`. -/
theorem mem_dedupFirst {α : Type} [BEq α] {l : List α} {a : α}
    (h : a ∈ dedupFirst l) : a ∈ l :=
  mem_dedupFirstAux l [] a h

/-- The last entry of a non-trivial Python range. -/
theorem pyRange_getLastD (a b : Int) (h : a < b) : (pyRange a b).getLastD 0 = b - 1 := by
  unfold pyRange
  have hb : (b - a).toNat = (b - a - 1).toNat + 1 := by omega
  rw [hb, List.range_succ, List.map_append, List.map_cons, List.map_nil,
    List.getLastD_concat]
  omega

/-- The list `seasons_to_load` returns always ends with the current season. -/
theorem seasons_to_load_getLastD (l c : Int) : (seasons_to_load l c).getLastD 0 = c := by
  unfold seasons_to_load
  split
  · rw [pyRange_getLastD _ _ (by omega)]; omega
  · rfl

/-- The function `seasons_to_load` never returns an empty list. -/
theorem seasons_to_load_ne_nil (l c : Int) : seasons_to_load l c ≠ [] := by
  unfold seasons_to_load
  split
  · unfold pyRange
    simp only [ne_eq, List.map_eq_nil_iff, List.range_eq_nil]
    omega
  · simp

/-- More than one season is loaded exactly in catch-up mode. -/
theorem seasons_to_load_length (l c : Int) : 1 < (seasons_to_load l c).length ↔ l < c - 1 := by
  unfold seasons_to_load
  split
  · simp only [pyRange, List.length_map, List.length_range]
    omega
  · simp only [List.length_singleton]
    omega

/-! ## C1: the overtime era state machine -/

/-- C1: for every qualifying overtime drive, `classify_ot_result` follows the
era-sensitive state machine: in the POST-before-2010 or REG-before-2012 eras
the drive is a Win iff a touchdown or made field goal attributable to the
starting offense occurred; otherwise the first overtime drive is a Win iff
such a touchdown occurred, and a later overtime drive is a Win iff the end
offense score strictly exceeds the end defense score.  In particular a
postseason drive of season 2009 uses the FG/TD rule, season 2010 onward (not
first rank) uses the lead/trail rule, and the cutoff sits symmetrically at
regular-season 2012. -/
theorem classify_ot_result_era_state_machine :
    ∀ (season_type : String) (s ot_rank : Int) (plays : List PlayRow)
      (posteam : Option String) (et eo : Int),
      ((pyUpper season_type = "POST" ∧ s < 2010) ∨ (pyUpper season_type = "REG" ∧ s < 2012) →
        ((classify_ot_result season_type (some s) ot_rank (td_scored_of plays posteam)
            (fg_scored_of plays posteam) et eo).1 = "W"
          ↔ (td_scored_of plays posteam || fg_scored_of plays posteam) = true)) ∧
      (¬(pyUpper season_type = "POST" ∧ s < 2010) → ¬(pyUpper season_type = "REG" ∧ s < 2012) →
        ot_rank = 1 →
        ((classify_ot_result season_type (some s) ot_rank (td_scored_of plays posteam)
            (fg_scored_of plays posteam) et eo).1 = "W"
          ↔ td_scored_of plays posteam = true)) ∧
      (¬(pyUpper season_type = "POST" ∧ s < 2010) → ¬(pyUpper season_type = "REG" ∧ s < 2012) →
        1 < ot_rank →
        ((classify_ot_result season_type (some s) ot_rank (td_scored_of plays posteam)
            (fg_scored_of plays posteam) et eo).1 = "W"
          ↔ eo < et)) ∧
      (pyUpper season_type = "POST" →
        (((classify_ot_result season_type (some 2009) ot_rank (td_scored_of plays posteam)
            (fg_scored_of plays posteam) et eo).1 = "W"
          ↔ (td_scored_of plays posteam || fg_scored_of plays posteam) = true) ∧
         (2010 ≤ s → 1 < ot_rank →
          ((classify_ot_result season_type (some s) ot_rank (td_scored_of plays posteam)
              (fg_scored_of plays posteam) et eo).1 = "W"
            ↔ eo < et)))) ∧
      (pyUpper season_type = "REG" →
        (((classify_ot_result season_type (some 2011) ot_rank (td_scored_of plays posteam)
            (fg_scored_of plays posteam) et eo).1 = "W"
          ↔ (td_scored_of plays posteam || fg_scored_of plays posteam) = true) ∧
         (2012 ≤ s → 1 < ot_rank →
          ((classify_ot_result season_type (some s) ot_rank (td_scored_of plays posteam)
              (fg_scored_of plays posteam) et eo).1 = "W"
            ↔ eo < et)))) := by
  intro season_type s ot_rank plays posteam et eo
  set td := td_scored_of plays posteam with htd
  set fg := fg_scored_of plays posteam with hfg
  have hera : ∀ (sv : Int) (rk : Int),
      ((pyUpper season_type = "POST" ∧ sv < 2010) ∨ (pyUpper season_type = "REG" ∧ sv < 2012)) →
      ((classify_ot_result season_type (some sv) rk td fg et eo).1 = "W"
        ↔ (td || fg) = true) := by
    intro sv rk h
    unfold classify_ot_result
    rcases h with ⟨hp, hs⟩ | ⟨hp, hs⟩
    · rw [if_pos ⟨hp, hs⟩]
      cases htf : (td || fg) <;> simp [htf]
    · rw [if_neg (by rintro ⟨hq, -⟩; rw [hp] at hq; exact absurd hq (by decide)),
        if_pos ⟨hp, hs⟩]
      cases htf : (td || fg) <;> simp [htf]
  have hnotera : ∀ (sv : Int) (rk : Int),
      ¬(pyUpper season_type = "POST" ∧ sv < 2010) → ¬(pyUpper season_type = "REG" ∧ sv < 2012) →
      (classify_ot_result season_type (some sv) rk td fg et eo)
        = (if rk = 1 then
            (if td then ("W", "OT (1st drive): TD scored (Success)")
             else ("L", "OT (1st drive): no TD (FG or no score) (Failure)"))
          else if eo < et then
            ("W", "OT (drive " ++ toString rk ++ "): ended leading (Success)")
          else ("L", "OT (drive " ++ toString rk ++ "): ended not leading (Failure)")) := by
    intro sv rk h1 h2
    unfold classify_ot_result
    rw [if_neg (by rintro ⟨hq, hr⟩; exact h1 ⟨hq, hr⟩),
      if_neg (by rintro ⟨hq, hr⟩; exact h2 ⟨hq, hr⟩)]
  have hrank1 : ∀ (sv : Int) (rk : Int),
      ¬(pyUpper season_type = "POST" ∧ sv < 2010) → ¬(pyUpper season_type = "REG" ∧ sv < 2012) →
      rk = 1 →
      ((classify_ot_result season_type (some sv) rk td fg et eo).1 = "W" ↔ td = true) := by
    intro sv rk h1 h2 hr
    rw [hnotera sv rk h1 h2, if_pos hr]
    cases htf : td <;> simp [htf]
  have hlead : ∀ (sv : Int) (rk : Int),
      ¬(pyUpper season_type = "POST" ∧ sv < 2010) → ¬(pyUpper season_type = "REG" ∧ sv < 2012) →
      1 < rk →
      ((classify_ot_result season_type (some sv) rk td fg et eo).1 = "W" ↔ eo < et) := by
    intro sv rk h1 h2 hr
    rw [hnotera sv rk h1 h2, if_neg (by omega)]
    by_cases hlt : eo < et
    · rw [if_pos hlt]; simpa using hlt
    · rw [if_neg hlt]
      constructor
      · intro hW; simp at hW
      · intro hlt2; exact absurd hlt2 hlt
  have hPR : pyUpper season_type = "POST" → ¬(pyUpper season_type = "REG") := by
    intro hp hq; rw [hp] at hq; exact absurd hq (by decide)
  have hRP : pyUpper season_type = "REG" → ¬(pyUpper season_type = "POST") := by
    intro hp hq; rw [hp] at hq; exact absurd hq (by decide)
  refine ⟨fun h => hera s ot_rank h, hrank1 s ot_rank, hlead s ot_rank, ?_, ?_⟩
  · intro hp
    refine ⟨hera 2009 ot_rank (Or.inl ⟨hp, by omega⟩), fun hs hr => ?_⟩
    exact hlead s ot_rank (by rintro ⟨-, hlt⟩; omega) (by rintro ⟨hq, -⟩; exact hPR hp hq) hr
  · intro hp
    refine ⟨hera 2011 ot_rank (Or.inr ⟨hp, by omega⟩), fun hs hr => ?_⟩
    exact hlead s ot_rank (by rintro ⟨hq, -⟩; exact hRP hp hq) (by rintro ⟨-, hlt⟩; omega) hr

/-! ## C2: the Q4 situational filter -/

/-- A Q4 drive-start snapshot with the given clock and scores, used to
evaluate the filter at concrete boundary inputs. -/
def mkStartRow (q ps ds : Int) : PlayRow :=
  { game_id := "G", play_id := 1, drive := some 1, qtr := some 4,
    posteam_score := some ps, defteam_score := some ds,
    quarter_seconds_remaining := some q }

/-- C2: a Q4 drive-start row passes the situational filter iff the remaining
quarter time lies in the closed interval `[0, 180]` and the score deficit in
the closed interval `[-8, -1]`. -/
theorem q4_filter_iff :
    ∀ (r : PlayRow) (q ps ds : Int),
      r.quarter_seconds_remaining = some q →
      r.posteam_score = some ps →
      r.defteam_score = some ds →
      (q4_filter r = true ↔ (0 ≤ q ∧ q ≤ 180 ∧ -8 ≤ ps - ds ∧ ps - ds ≤ -1)) := by
  intro r q ps ds hq hp hd
  unfold q4_filter
  rw [hq, hp, hd]
  simp only [optLeNum, optGeNum, optSub, optBetween, Bool.and_eq_true, decide_eq_true_eq]
  omega

/-- Boundary checks for C2: 181 seconds is excluded, 180 included, a deficit
of exactly 8 included, deficits 9 and 0 excluded. -/
theorem q4_filter_iff_witness :
    q4_filter (mkStartRow 180 10 15) = true ∧
    q4_filter (mkStartRow 181 10 15) = false ∧
    q4_filter (mkStartRow 100 10 18) = true ∧
    q4_filter (mkStartRow 100 9 18) = false ∧
    q4_filter (mkStartRow 100 15 15) = false :=
  ⟨(q4_filter_iff (mkStartRow 180 10 15) 180 10 15 rfl rfl rfl).mpr (by decide),
   by decide, by decide, by decide, by decide⟩

/-! ## C3: the late-loss suppression rule -/

/-- C3: for a candidate whose drive resolves end scores `(et, eo)`, the
post-classification override discards a Q4 candidate with at most 30 seconds
of starting quarter clock whose outcome is a Loss (`et < eo`), emitting
neither an opportunity nor a row; the identical candidate at 31 seconds with
a Loss is retained, a Q4 candidate at 30 seconds or less whose outcome is a
Win is retained, and a non-Q4 candidate is never suppressed. -/
theorem process_candidate_late_loss_rule :
    ∀ (c : Candidate) (drive_all : List PlayRow)
      (qm pm : List (String × String)) (lp : PlayRow) (et eo : Int),
      drive_end drive_all = some (lp, et, eo) →
      ((c.period = "Q4" → ∀ q : Int, c.start.quarter_seconds_remaining = some q →
        ((q ≤ 30 → et < eo → process_candidate c drive_all qm pm = none) ∧
         (q = 31 → et < eo → (process_candidate c drive_all qm pm).isSome = true) ∧
         (q ≤ 30 → eo ≤ et → (process_candidate c drive_all qm pm).isSome = true))) ∧
       (c.period ≠ "Q4" → (process_candidate c drive_all qm pm).isSome = true)) := by
  intro c drive_all qm pm lp et eo hend
  constructor
  · intro hper q hq
    refine ⟨?_, ?_, ?_⟩
    · intro h30 hlt
      unfold process_candidate
      rw [hend]
      dsimp only
      rw [if_pos hper, if_neg (not_le.mpr hlt)]
      rw [if_pos ⟨hper, by rw [hq]; simp only [optLeNum, decide_eq_true_eq]; exact h30, rfl⟩]
    · intro h31 hlt
      unfold process_candidate
      rw [hend]
      dsimp only
      rw [if_pos hper, if_neg (not_le.mpr hlt)]
      rw [if_neg (by
        rintro ⟨-, hle, -⟩
        rw [hq, h31] at hle
        simp only [optLeNum, decide_eq_true_eq] at hle
        omega)]
      rfl
    · intro h30 hge
      unfold process_candidate
      rw [hend]
      dsimp only
      rw [if_pos hper, if_pos hge]
      rw [if_neg (by rintro ⟨-, -, hres⟩; simp at hres)]
      rfl
  · intro hper
    unfold process_candidate
    rw [hend]
    dsimp only
    rw [if_neg hper]
    rw [if_neg (by rintro ⟨hp, -, -⟩; exact hper hp)]
    rfl

/-- A one-play Q4 drive whose end scores leave the offense trailing 17-20. -/
def losingDrivePlay : PlayRow :=
  { game_id := "G", play_id := 1, drive := some 1, qtr := some 4,
    game_seconds_remaining := some 20, quarter_seconds_remaining := some 20,
    posteam_score_post := some 17, defteam_score_post := some 20,
    time := some "0:20", desc := some "pass incomplete" }

/-- A one-play Q4 drive whose end scores put the offense level at 20-20. -/
def winningDrivePlay : PlayRow :=
  { game_id := "G", play_id := 1, drive := some 1, qtr := some 4,
    game_seconds_remaining := some 20, quarter_seconds_remaining := some 20,
    posteam_score_post := some 20, defteam_score_post := some 20,
    time := some "0:20", desc := some "field goal good" }

/-- A Q4 candidate snapshot starting with `q` seconds on the quarter clock. -/
def q4Cand (q : Int) : Candidate :=
  ⟨{ game_id := "G", play_id := 1, drive := some 1, qtr := some 4,
     season := some 2020, season_type := some "REG",
     posteam_score := some 17, defteam_score := some 20,
     quarter_seconds_remaining := some q, time := some "0:20" },
   some (-3), "Q4", none⟩

/-- Concrete instances of the late-loss rule: a 20-second losing candidate is
dropped, the same candidate at 31 seconds is kept, and a 20-second winning
candidate is kept. -/
theorem process_candidate_late_loss_rule_witness :
    process_candidate (q4Cand 20) [losingDrivePlay] [] [] = none ∧
    (process_candidate (q4Cand 31) [losingDrivePlay] [] []).isSome = true ∧
    (process_candidate (q4Cand 20) [winningDrivePlay] [] []).isSome = true := by
  refine ⟨?_, ?_, ?_⟩
  · exact ((process_candidate_late_loss_rule (q4Cand 20) [losingDrivePlay] [] []
      losingDrivePlay 17 20 (by decide)).1 rfl 20 rfl).1 (by decide) (by decide)
  · exact ((process_candidate_late_loss_rule (q4Cand 31) [losingDrivePlay] [] []
      losingDrivePlay 17 20 (by decide)).1 rfl 31 rfl).2.1 rfl (by decide)
  · exact ((process_candidate_late_loss_rule (q4Cand 20) [winningDrivePlay] [] []
      winningDrivePlay 20 20 (by decide)).1 rfl 20 rfl).2.2 (by decide) (by decide)

/-! ## C4: a run with no new games leaves the ledger untouched -/

/-- C4: when every fetched game id is already in `processed_games`, the run
does not reach the save and the persisted ledger state is returned unchanged
(the timestamp is only ever written on a save); in particular the processed
set keeps its size and no opportunity is appended. -/
theorem main_step_no_new_games :
    ∀ (cache : CacheState) (current_season : Int) (pbp_all : List PlayRow)
      (persistent_name_map : List (String × String)),
      (∀ r ∈ pbp_all, r.game_id ∈ cache.processed_games) →
      main_step cache current_season pbp_all persistent_name_map = cache ∧
      (main_step cache current_season pbp_all persistent_name_map).processed_games.length
        = cache.processed_games.length ∧
      (main_step cache current_season pbp_all persistent_name_map).opportunities
        = cache.opportunities := by
  intro cache cs pbp pm h
  have hmain : main_step cache cs pbp pm = cache := by
    unfold main_step
    by_cases hp : pbp.isEmpty = true
    · rw [if_pos hp]
    · rw [if_neg hp]
      have hng : new_games_of cache pbp = [] := by
        unfold new_games_of
        rw [List.filter_eq_nil_iff]
        intro g hg
        obtain ⟨r, hr, hrg⟩ := List.mem_map.mp (mem_dedupFirst hg)
        have hmem : g ∈ cache.processed_games := hrg ▸ h r hr
        simp only [Bool.not_eq_true', Bool.not_eq_false]
        exact List.elem_eq_true_of_mem hmem
      have hempty : pbp_new_of cache pbp = [] := by
        unfold pbp_new_of
        rw [hng]
        simp
      rw [if_pos (by rw [hempty]; rfl)]
  exact ⟨hmain, by rw [hmain], by rw [hmain]⟩

/-- A second run over one already-processed game returns the cache unchanged. -/
theorem main_step_no_new_games_witness :
    main_step ⟨[], ["G"], 2024, []⟩ 2025 [{ game_id := "G" }] []
      = (⟨[], ["G"], 2024, []⟩ : CacheState) :=
  (main_step_no_new_games ⟨[], ["G"], 2024, []⟩ 2025 [{ game_id := "G" }] []
    (by intro r hr; simp at hr; rw [hr]; simp)).1

/-! ## C5: last_season_processed never decreases -/

/-- C5: across a run, for every starting ledger, current season and fetched
table, the persisted `last_season_processed` is at least the loaded one. -/
theorem last_season_processed_monotone :
    ∀ (cache : CacheState) (current_season : Int) (pbp_all : List PlayRow)
      (persistent_name_map : List (String × String)),
      cache.last_season_processed
        ≤ (main_step cache current_season pbp_all persistent_name_map).last_season_processed := by
  intro cache cs pbp pm
  unfold main_step
  by_cases hp : pbp.isEmpty = true
  · rw [if_pos hp]
  · rw [if_neg hp]
    by_cases hn : (pbp_new_of cache pbp).isEmpty = true
    · rw [if_pos hn]
    · rw [if_neg hn]
      show cache.last_season_processed ≤ advance_last_season cache cs
      unfold advance_last_season
      dsimp only
      rw [seasons_to_load_getLastD]
      rw [if_neg (lt_irrefl cs)]
      by_cases hl : 1 < (seasons_to_load cache.last_season_processed cs).length
      · rw [if_pos hl]
        have := (seasons_to_load_length cache.last_season_processed cs).mp hl
        omega
      · rw [if_neg hl]

/-! ## C10: seasons_to_load and the advancement step -/

/-- C10: `seasons_to_load` always returns a non-empty list ending in the
current season (the inclusive catch-up range when behind by more than one
season, the current season alone otherwise); consequently the advancement
branch guarded by a most-recently-loaded season strictly below the current
season can never fire, and a catch-up run that reaches the save always sets
`last_season_processed` to the current season minus one. -/
theorem seasons_to_load_spec :
    ∀ (l c : Int) (cache : CacheState) (pbp_all : List PlayRow)
      (persistent_name_map : List (String × String)),
      (seasons_to_load l c ≠ [] ∧ (seasons_to_load l c).getLastD 0 = c) ∧
      (l < c - 1 → seasons_to_load l c = pyRange l (c + 1)) ∧
      (c - 1 ≤ l → seasons_to_load l c = [c]) ∧
      ¬((seasons_to_load l c).getLastD 0 < c) ∧
      (cache.last_season_processed < c - 1 → pipeline_saved cache pbp_all = true →
        (main_step cache c pbp_all persistent_name_map).last_season_processed = c - 1) := by
  intro l c cache pbp pm
  refine ⟨⟨seasons_to_load_ne_nil l c, seasons_to_load_getLastD l c⟩, ?_, ?_, ?_, ?_⟩
  · intro hcatch
    unfold seasons_to_load
    rw [if_pos hcatch]
  · intro hsteady
    unfold seasons_to_load
    rw [if_neg (by omega)]
  · rw [seasons_to_load_getLastD]
    exact lt_irrefl c
  · intro hcatch hsaved
    unfold pipeline_saved at hsaved
    rw [Bool.and_eq_true, Bool.not_eq_true', Bool.not_eq_true'] at hsaved
    obtain ⟨h1, h2⟩ := hsaved
    unfold main_step
    rw [if_neg (by rw [h1]; exact Bool.false_ne_true)]
    rw [if_neg (by rw [h2]; exact Bool.false_ne_true)]
    show advance_last_season cache c = c - 1
    unfold advance_last_season
    dsimp only
    rw [seasons_to_load_getLastD]
    rw [if_neg (lt_irrefl c)]
    rw [if_pos ((seasons_to_load_length cache.last_season_processed c).mpr hcatch)]

/-! ## C6: the leaderboard aggregator -/

/-- Rounding a nonnegative value never goes below zero. -/
theorem roundHalfEven_nonneg (y : Rat) (h : 0 ≤ y) : 0 ≤ roundHalfEven y := by
  unfold roundHalfEven
  dsimp only
  have hf : 0 ≤ ⌊y⌋ := Int.floor_nonneg.mpr h
  split_ifs <;> omega

/-- Rounding below an integer bound stays below it. -/
theorem roundHalfEven_le_of_le (y : Rat) (n : Int) (h : y ≤ (n : Rat)) :
    roundHalfEven y ≤ n := by
  have hfn : ⌊y⌋ ≤ n := by
    have := Int.floor_le_floor h
    simpa using this
  have hfy : (⌊y⌋ : Rat) ≤ y := Int.floor_le y
  unfold roundHalfEven
  dsimp only
  split_ifs with h1 h2 h3
  · exact hfn
  · have hlt : (⌊y⌋ : Rat) < (n : Rat) - 1/2 := by
      have : (⌊y⌋ : Rat) < y - 1/2 := by linarith [h2]
      linarith
    have : ⌊y⌋ < n := by
      have : (⌊y⌋ : Rat) < (n : Rat) := by linarith
      exact_mod_cast this
    omega
  · exact hfn
  · have heq : y - (⌊y⌋ : Rat) = 1/2 := le_antisymm (not_lt.mp h2) (not_lt.mp h1)
    have : (⌊y⌋ : Rat) < (n : Rat) := by linarith
    have : ⌊y⌋ < n := by exact_mod_cast this
    omega

/-- Rounding via `round1` keeps a value of `[0, 100]` inside `[0, 100]`. -/
theorem round1_bounds (x : Rat) (h0 : 0 ≤ x) (h1 : x ≤ 100) :
    0 ≤ round1 x ∧ round1 x ≤ 100 := by
  have hy0 : (0 : Rat) ≤ 10 * x := by linarith
  have hy1 : 10 * x ≤ ((1000 : Int) : Rat) := by push_cast; linarith
  have r0 := roundHalfEven_nonneg _ hy0
  have r1 := roundHalfEven_le_of_le _ _ hy1
  unfold round1
  constructor
  · apply div_nonneg _ (by norm_num)
    exact_mod_cast r0
  · rw [div_le_iff₀ (by norm_num : (0 : Rat) < 10)]
    have : ((roundHalfEven (10 * x) : Int) : Rat) ≤ ((1000 : Int) : Rat) := by exact_mod_cast r1
    push_cast at this ⊢
    linarith

/-- The exact win-percentage expression stays inside `[0, 100]`. -/
theorem win_pct_formula_bounds (w l : Nat) :
    0 ≤ round1 ((w : Rat) / ((w + l : Nat) : Rat) * 100) ∧
    round1 ((w : Rat) / ((w + l : Nat) : Rat) * 100) ≤ 100 := by
  by_cases h : 0 < w + l
  · have hd : (0 : Rat) < ((w + l : Nat) : Rat) := by exact_mod_cast h
    have hw : (w : Rat) ≤ ((w + l : Nat) : Rat) := by exact_mod_cast Nat.le_add_right w l
    have h0 : (0 : Rat) ≤ (w : Rat) / ((w + l : Nat) : Rat) * 100 := by positivity
    have h1 : (w : Rat) / ((w + l : Nat) : Rat) * 100 ≤ 100 := by
      have hq := (div_le_one hd).mpr hw
      nlinarith
    exact round1_bounds _ h0 h1
  · have hw : w = 0 := by omega
    have hl : l = 0 := by omega
    subst hw hl
    constructor
    · apply (round1_bounds 0 le_rfl (by norm_num)).1.trans_eq
      norm_num
    · apply le_trans _ ((round1_bounds 0 le_rfl (by norm_num)).2)
      norm_num

/-- Every output record of the leaderboard arises from a kept, non-placeholder
index id with at least one decision. -/
theorem mem_build_leaderboard_records {opportunities : List Opportunity}
    {name_map : List (String × String)} {rec : LRecord}
    (h : rec ∈ build_leaderboard_records opportunities name_map) :
    ∃ i, rec = mkRecord opportunities name_map i ∧
      pyStartsWith i "TEAM_" = false ∧ 0 < rec.decisions := by
  unfold build_leaderboard_records at h
  by_cases he : opportunities.isEmpty = true
  · rw [if_pos he] at h; cases h
  · rw [if_neg he] at h
    dsimp only at h
    rw [List.mem_insertionSort, List.mem_filter] at h
    obtain ⟨hmem, hdec⟩ := h
    rw [List.mem_map] at hmem
    obtain ⟨i, hi, hreci⟩ := hmem
    rw [List.mem_filter] at hi
    obtain ⟨-, hteam⟩ := hi
    refine ⟨i, hreci.symm, by simpa using hteam, by simpa using hdec⟩

/-- C6: every leaderboard record carries a non-placeholder id and at least one
decision, its wins and losses sum to its decisions, its win percentage is the
rounded `wins / decisions * 100` and lies in `[0, 100]`, and the output is
sorted by wins descending, then losses ascending, then win percentage
descending, with no further tie-break. -/
theorem build_leaderboard_records_spec :
    ∀ (opportunities : List Opportunity) (name_map : List (String × String)),
      (∀ rec ∈ build_leaderboard_records opportunities name_map,
        pyStartsWith rec.qb_id "TEAM_" = false ∧
        0 < rec.decisions ∧
        rec.wins + rec.losses = rec.decisions ∧
        rec.win_pct = round1 ((rec.wins : Rat) / (rec.decisions : Rat) * 100) ∧
        0 ≤ rec.win_pct ∧ rec.win_pct ≤ 100) ∧
      List.Sorted RecOrder (build_leaderboard_records opportunities name_map) := by
  intro opps nm
  constructor
  · intro rec hrec
    obtain ⟨i, hrec2, hteam, hdec⟩ := mem_build_leaderboard_records hrec
    subst hrec2
    have hdec2 : 0 < countRes opps i "W" + countRes opps i "L" := hdec
    refine ⟨hteam, hdec, rfl, ?_, ?_, ?_⟩
    · show (mkRecord opps nm i).win_pct = _
      simp only [mkRecord]
      rw [if_pos hdec2]
    · show (0 : Rat) ≤ (mkRecord opps nm i).win_pct
      simp only [mkRecord]
      rw [if_pos hdec2]
      exact (win_pct_formula_bounds _ _).1
    · show (mkRecord opps nm i).win_pct ≤ 100
      simp only [mkRecord]
      rw [if_pos hdec2]
      exact (win_pct_formula_bounds _ _).2
  · unfold build_leaderboard_records
    split
    · exact List.sorted_nil
    · exact List.sorted_insertionSort RecOrder _

/-! ## C7: loading the persisted ledger cache -/

/-- C7 (amended): an absent cache file yields the fresh-start defaults, but an
unreadable or schema-violating cache file is not treated as absent: a JSON
parse failure, a non-numeric `last_season_processed`, and a non-object
top-level value each raise instead of returning the defaults. -/
theorem load_legacydrive_cache_behaviour :
    load_legacydrive_cache none = Except.ok fresh_defaults ∧
    load_legacydrive_cache (some none) = Except.error "JSONDecodeError" ∧
    load_legacydrive_cache (some (some (JVal.jobj [("last_season_processed", JVal.js "oops")])))
      = Except.error "ValueError: invalid literal for int()" ∧
    load_legacydrive_cache (some (some (JVal.jarr [JVal.ji 1])))
      = Except.error "AttributeError: object has no attribute get" :=
  ⟨rfl, rfl, rfl, rfl⟩

/-- A malformed cache is not handled like an absent one: both the unparseable
file and the schema-violating file produce a different result from the
fresh-start defaults of an absent file. -/
theorem load_legacydrive_cache_counterexample :
    load_legacydrive_cache (some none) ≠ load_legacydrive_cache none ∧
    load_legacydrive_cache (some (some (JVal.jobj [("last_season_processed", JVal.js "oops")])))
      ≠ load_legacydrive_cache none := by
  constructor
  · intro h
    rw [show load_legacydrive_cache (some none) = Except.error "JSONDecodeError" from rfl,
      show load_legacydrive_cache none = Except.ok fresh_defaults from rfl] at h
    exact Except.noConfusion h
  · intro h
    rw [show load_legacydrive_cache
        (some (some (JVal.jobj [("last_season_processed", JVal.js "oops")])))
        = Except.error "ValueError: invalid literal for int()" from rfl,
      show load_legacydrive_cache none = Except.ok fresh_defaults from rfl] at h
    exact Except.noConfusion h

/-! ## C8: the team placeholder fallback -/

/-- C8 (amended): when neither a drive quarterback nor a pass-attempt passer
can be found, the resolver returns the non-empty placeholder pair
`TEAM_<posteam cell>` whose display name equals the identifier; a missing
offense-team cell renders as `nan` (the pipeline's rows always carry the
`posteam` field, so the `UNK` default for a row lacking the field entirely is
never exercised). -/
theorem get_qb_for_drive_team_placeholder :
    ∀ (drive_all : List PlayRow) (drive_start_row : PlayRow)
      (qb_name_map passer_name_map : List (String × String)),
      pandas_mode (drive_all.filterMap (fun p => p.qb_id)) = none →
      counter_most_common ((drive_all.filter (fun p => p.pass_attempt == some 1)).filterMap
        (fun p => p.passer_id)) = none →
      (get_qb_for_drive drive_all drive_start_row qb_name_map passer_name_map
          = ("TEAM_" ++ pyRenderOptStr drive_start_row.posteam,
             "TEAM_" ++ pyRenderOptStr drive_start_row.posteam) ∧
       "TEAM_" ++ pyRenderOptStr drive_start_row.posteam ≠ "") := by
  intro da r qm pm hmode hcnt
  constructor
  · unfold get_qb_for_drive
    dsimp only
    rw [hmode]
    dsimp only
    rw [hcnt]
  · intro h
    have h2 : ("TEAM_" ++ pyRenderOptStr r.posteam).data = ("" : String).data :=
      congrArg String.data h
    rw [String.data_append] at h2
    simp at h2

/-- A drive with no quarterback or passer information and offense team KC
resolves to the placeholder pair, which is non-empty. -/
theorem get_qb_for_drive_team_placeholder_witness :
    get_qb_for_drive [] ({ game_id := "G", posteam := some "KC" } : PlayRow) [] []
      = ("TEAM_KC", "TEAM_KC") ∧ ("TEAM_KC" : String) ≠ "" := by
  have h := get_qb_for_drive_team_placeholder []
    ({ game_id := "G", posteam := some "KC" } : PlayRow) [] [] rfl rfl
  exact ⟨by rw [h.1]; rfl, by decide⟩

/-- With the offense-team cell missing, the placeholder is `TEAM_nan`, not the
`TEAM_UNK` of the claim. -/
theorem get_qb_for_drive_unk_counterexample :
    get_qb_for_drive [] ({ game_id := "G" } : PlayRow) [] [] = ("TEAM_nan", "TEAM_nan") ∧
    ("TEAM_nan" : String) ≠ "TEAM_UNK" := by
  exact ⟨by decide, by decide⟩

/-! ## C9: unresolved display names -/

/-- C9 (amended): the pipeline still produces output when no display name can
be resolved — the per-drive resolver falls back to the raw identifier as the
display name — but a leaderboard record whose id is absent from the name map
carries a missing (`none`, pandas NaN) display name rather than the raw
identifier. -/
theorem unresolved_names_display :
    ∀ (drive_all : List PlayRow) (drive_start_row : PlayRow)
      (opportunities : List Opportunity),
      (get_qb_for_drive drive_all drive_start_row [] []).2
        = (get_qb_for_drive drive_all drive_start_row [] []).1 ∧
      (∀ rec ∈ build_leaderboard_records opportunities [], rec.qb_name = none) := by
  intro da r opps
  constructor
  · unfold get_qb_for_drive
    dsimp only
    rcases hm : pandas_mode (da.filterMap (fun p => p.qb_id)) with _ | qid
    · rw [hm]
      dsimp only
      rcases hc : counter_most_common ((da.filter (fun p => p.pass_attempt == some 1)).filterMap
          (fun p => p.passer_id)) with _ | pid
      · rw [hc]
      · rw [hc]; rfl
    · rw [hm]; rfl
  · intro rec hrec
    obtain ⟨i, hrec2, -, -⟩ := mem_build_leaderboard_records hrec
    subst hrec2
    rfl

/-- A single-win opportunity for an id absent from the name map yields a
leaderboard record with a missing display name, not the identifier string. -/
theorem leaderboard_missing_name_counterexample :
    (build_leaderboard_records [{ qb_id := "QB1", result := "W", season_type := some "REG" }]
      []).map (fun r => r.qb_name) = [none] ∧
    (none : Option String) ≠ some "QB1" :=
  ⟨rfl, by decide⟩

end LegacyDrives
